import Mathlib

/-!
Verification development for a retrieval-augmented-generation (RAG) service.

The embedding below translates the retrieval subsystem of the repository:

* `app/services/pinecone_service.py` — metadata creation, similarity search
  (in-memory cosine ranking and the Pinecone branch with its fallback);
* `app/services/rag_service.py` — the Ollama generation call and the
  query-answering orchestration;
* `app/main.py` — the upload (ingestion) and query endpoints together with
  the global pipeline state;
* `app/models/schemas.py` — the query request model.

Floating-point values are modelled as real numbers.  External collaborators
(the NLTK chunker, the embedding model, the Pinecone client, the HTTP layer)
are modelled as oracle parameters describing the outcome of each call, so
the control flow of the repository's own code can be translated faithfully.
-/

/-- Python truthiness of an optional string: `None` and `""` are falsy. -/
def truthyStr : Option String → Bool
  | none => false
  | some s => !s.isEmpty

/-- Python `a or b` for two optional strings (used for the index-name
resolution in `ask_document`). -/
def pyOr (a b : Option String) : Option String :=
  if truthyStr a then a else b

/-- Python `s or d` for an optional string and a string default
(used for `source_file or 'uploaded_document'`). -/
def pyOrDefault (a : Option String) (d : String) : String :=
  match a with
  | some s => if s.isEmpty then d else s
  | none => d

/-- `file_name.lower().split('.')[-1] if '.' in file_name else ''`
from `upload_and_process_document`, expressed on the character list of the
file name. -/
def fileExtension (name : String) : String :=
  if name.toList.contains '.' then
    String.mk (((name.toList.map Char.toLower).splitOn '.').getLastD [])
  else ""

/-- Python slicing `l[:k]`: `k = None` keeps the whole list, a non-negative
`k` keeps the first `k` elements, and a negative `k` drops the last `|k|`
elements. -/
def pySlice (l : List α) : Option Int → List α
  | none => l
  | some k => if 0 ≤ k then l.take k.toNat else l.take (l.length - (-k).toNat)

/-- `np.dot` on two vectors: sum of coordinatewise products. -/
def np_dot (xs ys : List ℝ) : ℝ := (List.zipWith (fun a b => a * b) xs ys).sum

/-- `np.linalg.norm`: the Euclidean norm, square root of the dot product of
a vector with itself. -/
noncomputable def np_linalg_norm (xs : List ℝ) : ℝ := Real.sqrt (np_dot xs xs)

/-- The similarity computed for one stored vector inside
`_in_memory_search`: `0.0` when either norm is zero, otherwise
`dot_product / (norm_query * norm_chunk)`. -/
noncomputable def cosineSimilarity (q v : List ℝ) : ℝ :=
  if np_linalg_norm q = 0 ∨ np_linalg_norm v = 0 then 0
  else np_dot q v / (np_linalg_norm q * np_linalg_norm v)

/-- The list built by the `for i, chunk_embedding in enumerate(embeddings_list)`
loop of `_in_memory_search`: tuples `(i, similarity, chunks[i])`.  The
`getD` default is never reached on aligned states, where
`chunks.length = embeddings_list.length`. -/
noncomputable def similarity_list (query_embedding : List ℝ) (chunks : List String)
    (embeddings_list : List (List ℝ)) : List (ℕ × ℝ × String) :=
  embeddings_list.enum.map fun p =>
    (p.1, cosineSimilarity query_embedding p.2, chunks.getD p.1 "")

/-- The comparison realised by
`similarities.sort(key=lambda x: x[1], reverse=True)`: an element comes
before another when its similarity (second component) is at least as large.
Python's sort is stable, as is `List.mergeSort`. -/
noncomputable def simLE (a b : ℕ × ℝ × String) : Bool := decide (b.2.1 ≤ a.2.1)

/-- `_in_memory_search` from `pinecone_service.py`: build the similarity
list, sort it by similarity descending (stable), and return the slice
`similarities[:top_k]`. -/
noncomputable def _in_memory_search (query_embedding : List ℝ) (chunks : List String)
    (embeddings_list : List (List ℝ)) (top_k : Option Int) : List (ℕ × ℝ × String) :=
  pySlice ((similarity_list query_embedding chunks embeddings_list).mergeSort simLE) top_k

/-- A ranked match as returned by `search_similar_chunks`: the Pinecone
branch labels matches by string id, the in-memory branch by chunk index. -/
abbrev SimilarityMatch := (String ⊕ ℕ) × ℝ × String

/-- `search_similar_chunks` from `pinecone_service.py`.  `pineconeQ` is the
outcome of the external `index.query` call: a list of
`(match.id, match.score, match.metadata['text'])` on success, or the raised
exception's message.  When `pinecone_index_name` is truthy the Pinecone
branch runs; on an exception it falls back to `_in_memory_search` when both
`chunks` and `embeddings_list` are non-empty and returns `[]` otherwise. -/
noncomputable def search_similar_chunks
    (pineconeQ : Except String (List (String × ℝ × String)))
    (embedQuery : String → List ℝ) (query : String) (chunks : List String)
    (embeddings_list : List (List ℝ)) (top_k : Option Int)
    (pinecone_index_name : Option String) : List SimilarityMatch :=
  let query_embedding := embedQuery query
  if truthyStr pinecone_index_name then
    match pineconeQ with
    | .ok ms => ms.map fun m => (Sum.inl m.1, m.2.1, m.2.2)
    | .error _ =>
      if !chunks.isEmpty && !embeddings_list.isEmpty then
        (_in_memory_search query_embedding chunks embeddings_list top_k).map
          fun m => (Sum.inr m.1, m.2.1, m.2.2)
      else []
  else
    (_in_memory_search query_embedding chunks embeddings_list top_k).map
      fun m => (Sum.inr m.1, m.2.1, m.2.2)

/-- Per-chunk metadata dictionary built by `create_embedding_metadata`. -/
structure ChunkMetadata where
  chunk_id : ℕ
  chunk_size : ℕ
  source_file : String
  chunk_preview : String
  text : String
deriving DecidableEq

/-- `create_embedding_metadata` from `pinecone_service.py`. -/
def create_embedding_metadata (chunks : List String) (source_file : Option String) :
    List ChunkMetadata :=
  chunks.enum.map fun p =>
    { chunk_id := p.1
      chunk_size := p.2.length
      source_file := pyOrDefault source_file "uploaded_document"
      chunk_preview := if 100 < p.2.length then p.2.take 100 ++ "..." else p.2
      text := p.2 }

/-- One streamed line of the Ollama response, after `json.loads`:
a `"response"` field, a `"message": {"content": ...}` field, some other
JSON object, or a line that fails to decode (`JSONDecodeError`, skipped by
`continue`).  Each decoded line carries its `"done"` flag. -/
inductive OllamaLine where
  | respChunk (s : String) (done : Bool)
  | messageChunk (s : String) (done : Bool)
  | otherJson (done : Bool)
  | malformed

/-- Outcome of the `requests.post` call in `call_ollama_llm`: a streamed
body, or one of the exceptions caught by the `except` clauses. -/
inductive OllamaResult where
  | success (lines : List OllamaLine)
  | httpError (err : String) (responseText : String)
  | connectionError (err : String)
  | timeoutError (err : String)
  | requestError (err : String)
  | otherError (err : String)

/-- The accumulation loop of `call_ollama_llm`: append the content of each
decoded line to `full_response_content`, stop at the first line whose
`done` flag is set, and skip malformed lines. -/
def collectResponse : List OllamaLine → String → String
  | [], acc => acc
  | line :: rest, acc =>
    match line with
    | .respChunk s d => if d then acc ++ s else collectResponse rest (acc ++ s)
    | .messageChunk s d => if d then acc ++ s else collectResponse rest (acc ++ s)
    | .otherJson d => if d then acc else collectResponse rest acc
    | .malformed => collectResponse rest acc

/-- `call_ollama_llm` from `rag_service.py`, as a function of the call's
outcome.  Every branch returns a string; no exception escapes. -/
def call_ollama_llm : OllamaResult → String
  | .success lines =>
    let full_response_content := collectResponse lines ""
    if full_response_content.isEmpty then
      "Ollama LLM response received, but no content was extracted."
    else full_response_content
  | .httpError e t =>
    "HTTP error calling Ollama LLM: " ++ e ++ " - Response: " ++ t
  | .connectionError e =>
    "Connection error calling Ollama LLM: " ++ e ++
      ". Make sure Ollama server is running and accessible."
  | .timeoutError e =>
    "Timeout error calling Ollama LLM: " ++ e ++ ". The request took too long."
  | .requestError e =>
    "An unexpected request error occurred calling Ollama LLM: " ++ e
  | .otherError e =>
    "An unexpected error occurred during Ollama LLM call: " ++ e

/-- The fixed sentinel returned by `ask_llm_with_context` when retrieval
yields no matches. -/
def no_info_message : String :=
  "No relevant information found in the document to answer your query. Please try a different question."

/-- The prompt template of `ask_llm_with_context`, instantiated with the
context block and the original query. -/
def llm_prompt (context query : String) : String :=
  "\n    You are an AI assistant tasked with answering questions based on the provided context.\n\nContext:\n---\n"
    ++ context ++ "\n---\n\nQuestion: " ++ query ++ "\n\nAnswer:\n"

/-- `ask_llm_with_context` from `rag_service.py`.  Returns the answer
string together with the number of generation calls performed (0 or 1).
`ollama` maps the prompt to the outcome of the generation request. -/
noncomputable def ask_llm_with_context (ollama : String → OllamaResult)
    (pineconeQ : Except String (List (String × ℝ × String)))
    (embedQuery : String → List ℝ) (query : String) (chunks : List String)
    (embeddings_list : List (List ℝ)) (pinecone_index_name : Option String)
    (top_k : Option Int) : String × ℕ :=
  let retrieved_chunks_info :=
    search_similar_chunks pineconeQ embedQuery query chunks embeddings_list
      top_k pinecone_index_name
  if retrieved_chunks_info.isEmpty then (no_info_message, 0)
  else
    let context := String.intercalate "\n\n" (retrieved_chunks_info.map fun m => m.2.2)
    (call_ollama_llm (ollama (llm_prompt context query)), 1)

/-- The embedding-model handle (`PineconeEmbeddings`): its two methods.
`embed_documents` is order-preserving and one-to-one, so it is modelled as
mapping `embedDoc` over the chunk list. -/
structure EmbModel where
  embedQuery : String → List ℝ
  embedDoc : String → List ℝ

/-- The global `rag_pipeline_state` dictionary of `rag_service.py`. -/
structure PipelineState where
  chunks : List String
  embeddings : List (List ℝ)
  metadata : List ChunkMetadata
  embeddings_model : Option EmbModel
  pinecone_index_name : Option String

/-- A raised `HTTPException`: status code and detail message. -/
structure HTTPError where
  status : ℕ
  detail : String
deriving DecidableEq

/-- The success payload of `upload_and_process_document`. -/
structure UploadResponse where
  message : String
  file_type : String
  chunks_created : ℕ
  characters_extracted : ℕ
deriving DecidableEq

/-- Oracle describing the outcomes of all external calls made by
`upload_and_process_document`: text extraction, the NLTK splitter,
embedding-model initialisation, the batch embedding call, Pinecone index
creation (`none` = returned `True`, `some e` = raised with message `e`) and
vector storage (`store_ok = false` = returned `False`). -/
structure UploadEnv where
  extract_text_from_docx : Option String
  extract_text_from_markdown : Option String
  chunk_text_nltk : String → ℕ → ℕ → List String
  initialize_embeddings : Option EmbModel
  embed_fails : Bool
  create_index_error : Option String
  store_ok : Bool

/-- Text extraction step of `upload_and_process_document`: dispatch on the
file extension, then reject `None` or empty text with a 400 error. -/
def extractStep (env : UploadEnv) (file_name : String) : Except HTTPError String :=
  let ext := fileExtension file_name
  if ext = "docx" then
    match env.extract_text_from_docx with
    | some t =>
      if t.isEmpty then .error ⟨400, "Failed to extract text from DOCX file."⟩ else .ok t
    | none => .error ⟨400, "Failed to extract text from DOCX file."⟩
  else if ext = "md" ∨ ext = "markdown" then
    match env.extract_text_from_markdown with
    | some t =>
      if t.isEmpty then .error ⟨400, "Failed to extract text from Markdown file."⟩ else .ok t
    | none => .error ⟨400, "Failed to extract text from Markdown file."⟩
  else
    .error ⟨400, "Unsupported file format: " ++ ext ++
      ". Supported formats: DOCX, Markdown (.md, .markdown)"⟩

/-- `upload_and_process_document` from `app/main.py`.  Returns the HTTP
outcome together with the pipeline state after the request (the global
state is mutated in place by the endpoint, also on some failure paths). -/
def upload_and_process_document (env : UploadEnv) (st : PipelineState)
    (file_name : String) (index_name : Option String) :
    Except HTTPError UploadResponse × PipelineState :=
  match extractStep env file_name with
  | .error e => (.error e, st)
  | .ok text =>
    let ext := fileExtension file_name
    let chunks := env.chunk_text_nltk text 200 20
    match env.initialize_embeddings with
    | none => (.error ⟨500, "Failed to initialize embeddings model."⟩, st)
    | some model =>
      let embeddings_list := if env.embed_fails then [] else chunks.map model.embedDoc
      if embeddings_list.isEmpty then
        (.error ⟨500, "Failed to create embeddings."⟩, st)
      else
        let metadata_list := create_embedding_metadata chunks (some file_name)
        let st1 : PipelineState :=
          { st with
            chunks := chunks
            embeddings := embeddings_list
            metadata := metadata_list
            embeddings_model := some model }
        let inMemoryDone : Except HTTPError UploadResponse × PipelineState :=
          (.ok ⟨"Pipeline completed successfully. " ++ ext.toUpper ++
              " file processed and embeddings kept in-memory.",
            ext, chunks.length, text.length⟩, st1)
        match index_name with
        | none => inMemoryDone
        | some iname =>
          if iname.isEmpty then inMemoryDone
          else
            match env.create_index_error with
            | some err =>
              (.error ⟨500, "Pinecone index creation error: " ++ err⟩, st1)
            | none =>
              if env.store_ok then
                (.ok ⟨"Pipeline completed successfully. " ++ ext.toUpper ++
                    " file processed and embeddings stored in Pinecone index '" ++
                    iname ++ "'.",
                  ext, chunks.length, text.length⟩,
                 { st1 with pinecone_index_name := some iname })
              else (.error ⟨500, "Failed to store embeddings in Pinecone."⟩, st1)

/-- The `QueryModel` pydantic schema of `app/models/schemas.py`. -/
structure QueryModel where
  query : String
  top_k : Option Int
  pinecone_index_name : Option String
deriving DecidableEq

/-- Validation of a query request body: each optional field is either
absent (outer `none`, replaced by the schema default) or present with an
explicit value (possibly `null`).  `top_k` defaults to `5`,
`pinecone_index_name` to `None`; no further constraint is applied. -/
def parseQueryModel (query : String) (top_k_field : Option (Option Int))
    (pinecone_field : Option (Option String)) : QueryModel :=
  { query := query
    top_k := top_k_field.getD (some 5)
    pinecone_index_name := pinecone_field.getD none }

/-- Oracle for the external calls of the query path: lazy embedding-model
initialisation, the Pinecone query outcome, and the generation call. -/
structure QueryEnv where
  initialize_embeddings : Option EmbModel
  pinecone_query : Except String (List (String × ℝ × String))
  ollama : String → OllamaResult

/-- `ask_document` from `app/main.py`: lazily initialise the embedding
model if absent, resolve the index name as
`rag_pipeline_state.get('pinecone_index_name') or query_data.pinecone_index_name`,
reject when neither an index nor in-memory chunks exist, and otherwise
answer through `ask_llm_with_context`. -/
noncomputable def ask_document (env : QueryEnv) (st : PipelineState)
    (query_data : QueryModel) : Except HTTPError String × PipelineState :=
  let withModel : Except HTTPError (EmbModel × PipelineState) :=
    match st.embeddings_model with
    | some m => .ok (m, st)
    | none =>
      match env.initialize_embeddings with
      | some m => .ok (m, { st with embeddings_model := some m })
      | none => .error ⟨500, "Failed to initialize embeddings model."⟩
  match withModel with
  | .error e => (.error e, st)
  | .ok (m, st1) =>
    let pinecone_index := pyOr st1.pinecone_index_name query_data.pinecone_index_name
    if truthyStr pinecone_index = false ∧ st1.chunks.isEmpty = true then
      (.error ⟨400, "No document in memory or Pinecone index provided."⟩, st1)
    else
      (.ok (ask_llm_with_context env.ollama env.pinecone_query m.embedQuery
        query_data.query st1.chunks st1.embeddings pinecone_index query_data.top_k).1,
       st1)

/-- A concrete embedding-model handle used in concrete evaluations. -/
noncomputable def sample_model : EmbModel :=
  ⟨fun _ => [(1 : ℝ)], fun _ => [(1 : ℝ)]⟩

/-- A concrete upload oracle on which every external call succeeds. -/
noncomputable def sample_env_ok : UploadEnv :=
  ⟨some "hello world", none, fun _ _ _ => ["hello world"], some sample_model,
   false, none, true⟩

/-- The successful upload oracle, with Pinecone vector storage failing. -/
noncomputable def sample_env_store_fail : UploadEnv :=
  { sample_env_ok with store_ok := false }

/-- A prior pipeline state remembering a previously stored index name. -/
def sample_state_old : PipelineState := ⟨[], [], [], none, some "oldindex"⟩

/-- A prior pipeline state with no stored index name. -/
def sample_state_empty : PipelineState := ⟨[], [], [], none, none⟩

/-- A concrete pipeline state holding one in-memory document and a stored
index name. -/
noncomputable def sample_state_stored : PipelineState :=
  ⟨["a"], [[(1 : ℝ)]], [], some sample_model, some "stored"⟩

/-- A concrete query oracle. -/
noncomputable def sample_query_env : QueryEnv :=
  ⟨some sample_model, .ok [], fun _ => .success []⟩

theorem zipWith_mul_self (v : List ℝ) :
    List.zipWith (fun a b => a * b) v v = v.map fun x => x * x := by
  induction v with
  | nil => rfl
  | cons x xs ih => simp [List.zipWith, ih]

theorem np_dot_self_nonneg (v : List ℝ) : 0 ≤ np_dot v v := by
  rw [np_dot, zipWith_mul_self]
  exact List.sum_nonneg fun x hx => by
    obtain ⟨y, _, rfl⟩ := List.mem_map.mp hx
    exact mul_self_nonneg y

theorem np_linalg_norm_eq_zero_iff (v : List ℝ) :
    np_linalg_norm v = 0 ↔ np_dot v v = 0 := by
  rw [np_linalg_norm, Real.sqrt_eq_zero']
  constructor
  · intro h; exact le_antisymm h (np_dot_self_nonneg v)
  · intro h; exact le_of_eq h

/-- C1: For every query vector `q` and stored vector `v`, the in-memory
similarity equals `dot(q, v) / (norm(q) * norm(v))`, except that it equals
`0.0` (returned, not thrown, not NaN) whenever either norm is zero; two
identical nonzero vectors score `1.0` and orthogonal vectors score `0.0`;
and the scores in the query operation's similarity list are exactly these
cosine similarities of the stored vectors. -/
theorem cosine_similarity_spec (q v w : List ℝ) (chunks : List String)
    (embs : List (List ℝ)) :
    (np_linalg_norm q = 0 ∨ np_linalg_norm v = 0 → cosineSimilarity q v = 0)
    ∧ (np_linalg_norm q ≠ 0 → np_linalg_norm v ≠ 0 →
        cosineSimilarity q v = np_dot q v / (np_linalg_norm q * np_linalg_norm v))
    ∧ (np_dot w w ≠ 0 → cosineSimilarity w w = 1)
    ∧ (np_linalg_norm q ≠ 0 → np_linalg_norm v ≠ 0 → np_dot q v = 0 →
        cosineSimilarity q v = 0)
    ∧ (similarity_list q chunks embs).map (fun m => m.2.1)
        = embs.map (cosineSimilarity q) := by
  refine ⟨?_, ?_, ?_, ?_, ?_⟩
  · intro h; rw [cosineSimilarity, if_pos h]
  · intro h1 h2; rw [cosineSimilarity, if_neg (by tauto)]
  · intro hw
    have h0 : 0 ≤ np_dot w w := np_dot_self_nonneg w
    have hn : np_linalg_norm w ≠ 0 := by
      rw [Ne, np_linalg_norm_eq_zero_iff]; exact hw
    rw [cosineSimilarity, if_neg (by tauto), np_linalg_norm,
      Real.mul_self_sqrt h0]
    exact div_self hw
  · intro h1 h2 h3
    rw [cosineSimilarity, if_neg (by tauto), h3, zero_div]
  · rw [similarity_list, List.map_map]
    have : ((fun m : ℕ × ℝ × String => m.2.1) ∘ fun p : ℕ × List ℝ =>
        (p.1, cosineSimilarity q p.2, chunks.getD p.1 "")) =
        cosineSimilarity q ∘ Prod.snd := rfl
    rw [this, ← List.map_map, List.enum_map_snd]

theorem cosine_similarity_spec_witness :
    cosineSimilarity [(1 : ℝ), 0] [(1 : ℝ), 0] = 1
    ∧ cosineSimilarity [(1 : ℝ), 0] [(0 : ℝ), 1] = 0
    ∧ cosineSimilarity [(0 : ℝ), 0] [(1 : ℝ), 0] = 0 := by
  have hd11 : np_dot [(1 : ℝ), 0] [(1 : ℝ), 0] = 1 := by
    simp [np_dot]
  have hn1 : np_linalg_norm [(1 : ℝ), 0] ≠ 0 := by
    rw [Ne, np_linalg_norm_eq_zero_iff, hd11]; norm_num
  have hd01 : np_dot [(0 : ℝ), 1] [(0 : ℝ), 1] = 1 := by
    simp [np_dot]
  have hn2 : np_linalg_norm [(0 : ℝ), 1] ≠ 0 := by
    rw [Ne, np_linalg_norm_eq_zero_iff, hd01]; norm_num
  have hz : np_linalg_norm [(0 : ℝ), 0] = 0 := by
    rw [np_linalg_norm_eq_zero_iff]; simp [np_dot]
  refine ⟨?_, ?_, ?_⟩
  · exact (cosine_similarity_spec [1, 0] [1, 0] [(1 : ℝ), 0] [] []).2.2.1
      (by rw [hd11]; norm_num)
  · exact (cosine_similarity_spec [(1 : ℝ), 0] [(0 : ℝ), 1] [] [] []).2.2.2.1 hn1 hn2
      (by simp [np_dot])
  · exact (cosine_similarity_spec [(0 : ℝ), 0] [(1 : ℝ), 0] [] [] []).1 (Or.inl hz)

theorem collectResponse_malformed (n : ℕ) (acc : String) :
    collectResponse (List.replicate n .malformed) acc = acc := by
  induction n with
  | zero => rfl
  | succ k ih => simpa [List.replicate, collectResponse] using ih

/-- C5: Every failure of the generation call (HTTP error, connection error,
timeout, any other request exception or unexpected exception, and a fully
malformed streamed response) is converted into a descriptive string that is
returned as the answer value; `call_ollama_llm` is a total function into
`String`, so the caller always receives a string and no exception is
propagated. -/
theorem call_ollama_llm_error_strings (e t : String) (n : ℕ) :
    call_ollama_llm (.httpError e t)
      = "HTTP error calling Ollama LLM: " ++ e ++ " - Response: " ++ t
    ∧ call_ollama_llm (.connectionError e)
      = "Connection error calling Ollama LLM: " ++ e ++
          ". Make sure Ollama server is running and accessible."
    ∧ call_ollama_llm (.timeoutError e)
      = "Timeout error calling Ollama LLM: " ++ e ++ ". The request took too long."
    ∧ call_ollama_llm (.requestError e)
      = "An unexpected request error occurred calling Ollama LLM: " ++ e
    ∧ call_ollama_llm (.otherError e)
      = "An unexpected error occurred during Ollama LLM call: " ++ e
    ∧ call_ollama_llm (.success (List.replicate n .malformed))
      = "Ollama LLM response received, but no content was extracted." := by
  refine ⟨rfl, rfl, rfl, rfl, rfl, ?_⟩
  rw [call_ollama_llm, collectResponse_malformed]
  rfl

/-- C7: The metadata created for chunk `i` has `chunk_id = i`, `chunk_size`
equal to the chunk's length, `source_file` equal to the given file name (or
the default sentinel when absent), `chunk_preview` equal to the first 100
characters plus an ellipsis exactly when the chunk is longer than 100
characters, and `text` equal to the full chunk. -/
theorem create_embedding_metadata_fields (chunks : List String) (sf : Option String)
    (i : ℕ) (c : String) (h : chunks[i]? = some c) :
    (create_embedding_metadata chunks sf)[i]? = some
      { chunk_id := i
        chunk_size := c.length
        source_file := pyOrDefault sf "uploaded_document"
        chunk_preview := if 100 < c.length then c.take 100 ++ "..." else c
        text := c }
    ∧ (∀ s, sf = some s → ¬s.isEmpty → pyOrDefault sf "uploaded_document" = s)
    ∧ (sf = none → pyOrDefault sf "uploaded_document" = "uploaded_document") := by
  refine ⟨?_, ?_, ?_⟩
  · simp [create_embedding_metadata, List.getElem?_enum, h]
  · intro s hs hne
    subst hs
    simp [pyOrDefault, hne]
  · intro h0; subst h0; rfl

theorem create_embedding_metadata_fields_witness :
    (create_embedding_metadata ["hello"] none)[0]? = some
      { chunk_id := 0
        chunk_size := 5
        source_file := "uploaded_document"
        chunk_preview := "hello"
        text := "hello" } := by
  have h := (create_embedding_metadata_fields ["hello"] none 0 "hello" rfl).1
  rw [h]
  decide

theorem simLE_trans : ∀ (a b c : ℕ × ℝ × String), simLE a b → simLE b c → simLE a c := by
  intro a b c hab hbc
  simp only [simLE, decide_eq_true_eq] at *
  exact le_trans hbc hab

theorem simLE_total : ∀ (a b : ℕ × ℝ × String), simLE a b || simLE b a := by
  intro a b
  simp only [simLE, Bool.or_eq_true, decide_eq_true_eq]
  exact le_total _ _

theorem mem_pair_sublist {α : Type} {x y : α} {l : List α} (hx : x ∈ l) (hy : y ∈ l)
    (hne : x ≠ y) : List.Sublist [x, y] l ∨ List.Sublist [y, x] l := by
  induction l with
  | nil => cases hx
  | cons a t ih =>
    rcases List.mem_cons.mp hx with rfl | hx2
    · rcases List.mem_cons.mp hy with rfl | hy2
      · exact absurd rfl hne
      · exact Or.inl (List.Sublist.cons₂ x (List.singleton_sublist.mpr hy2))
    · rcases List.mem_cons.mp hy with rfl | hy2
      · exact Or.inr (List.Sublist.cons₂ y (List.singleton_sublist.mpr hx2))
      · rcases ih hx2 hy2 with h | h
        · exact Or.inl (List.Sublist.cons a h)
        · exact Or.inr (List.Sublist.cons a h)

theorem sublist_pair_antisym {α : Type} {x y : α} {l : List α} (hl : l.Nodup)
    (h1 : List.Sublist [x, y] l) (h2 : List.Sublist [y, x] l) : x = y := by
  induction l with
  | nil => cases h1
  | cons a t ih =>
    rcases List.nodup_cons.mp hl with ⟨ha, ht⟩
    cases h1 with
    | cons _ h1t =>
      cases h2 with
      | cons _ h2t => exact ih ht h1t h2t
      | cons₂ _ h2t =>
        have hyt : y ∈ t := h1t.subset (List.mem_cons_of_mem x (List.mem_cons_self y []))
        exact absurd hyt ha
    | cons₂ _ h1t =>
      cases h2 with
      | cons _ h2t =>
        have hxt : x ∈ t := h2t.subset (List.mem_cons_of_mem y (List.mem_cons_self x []))
        exact absurd hxt ha
      | cons₂ _ h2t => rfl

theorem similarity_list_pairwise_idx (q : List ℝ) (chunks : List String)
    (embs : List (List ℝ)) :
    (similarity_list q chunks embs).Pairwise fun a b => a.1 < b.1 := by
  rw [similarity_list, List.pairwise_map]
  have h : (embs.enum.map Prod.fst).Pairwise (fun a b => a < b) := by
    rw [List.enum_map_fst]
    exact List.pairwise_lt_range embs.length
  exact List.pairwise_map.mp h

theorem mergeSort_simLE_sorted (l : List (ℕ × ℝ × String)) :
    (l.mergeSort simLE).Pairwise fun a b => b.2.1 ≤ a.2.1 := by
  have h := List.sorted_mergeSort simLE_trans simLE_total l
  exact h.imp fun hab => by simpa [simLE] using hab

theorem mergeSort_simLE_tiebreak (l : List (ℕ × ℝ × String))
    (h : l.Pairwise fun a b => a.1 < b.1) :
    (l.mergeSort simLE).Pairwise fun a b => a.2.1 = b.2.1 → a.1 < b.1 := by
  have hnd : l.Nodup :=
    h.imp fun hab he => absurd (he ▸ hab) (lt_irrefl _)
  have hnd2 : (l.mergeSort simLE).Nodup :=
    ((List.mergeSort_perm l simLE).nodup_iff).mpr hnd
  rw [List.pairwise_iff_forall_sublist]
  intro a b hsub heq
  have hmem_a : a ∈ l :=
    List.mem_mergeSort.mp (hsub.subset (List.mem_cons_self a [b]))
  have hmem_b : b ∈ l :=
    List.mem_mergeSort.mp (hsub.subset (List.mem_cons_of_mem a (List.mem_cons_self b [])))
  by_cases hab : a = b
  · subst hab
    have : ([a, a] : List (ℕ × ℝ × String)).Nodup := hsub.nodup hnd2
    simp at this
  · rcases mem_pair_sublist hmem_a hmem_b hab with h1 | h1
    · exact List.pairwise_iff_forall_sublist.mp h h1
    · have hle : simLE b a = true := by
        simp [simLE, heq]
      have h2 : List.Sublist [b, a] (l.mergeSort simLE) :=
        List.sublist_mergeSort simLE_trans simLE_total (List.pairwise_pair.mpr hle) h1
      exact absurd (sublist_pair_antisym hnd2 hsub h2) hab

theorem pySlice_sublist (l : List α) (k : Option Int) : List.Sublist (pySlice l k) l := by
  cases k with
  | none => exact List.Sublist.refl l
  | some n =>
    rw [pySlice]
    split
    · exact List.take_sublist _ _
    · exact List.take_sublist _ _

theorem similarity_list_length (q : List ℝ) (chunks : List String)
    (embs : List (List ℝ)) : (similarity_list q chunks embs).length = embs.length := by
  simp [similarity_list]

/-- C2: Every in-memory query result has similarity scores non-increasing
by position, ties broken by original chunk index ascending, and a `topK`
of at least the number of stored vectors returns exactly all available
matches (a permutation of the full similarity list, of the same length as
the stored-vector list) with no padding and no error. -/
theorem in_memory_search_ordering (qe : List ℝ) (chunks : List String)
    (embs : List (List ℝ)) (k : Option Int) :
    ((_in_memory_search qe chunks embs k).Pairwise
      fun a b => b.2.1 ≤ a.2.1 ∧ (a.2.1 = b.2.1 → a.1 < b.1))
    ∧ ∀ n : Int, k = some n → (embs.length : Int) ≤ n →
        (_in_memory_search qe chunks embs k).Perm (similarity_list qe chunks embs)
        ∧ (_in_memory_search qe chunks embs k).length = embs.length := by
  constructor
  · have hs := mergeSort_simLE_sorted (similarity_list qe chunks embs)
    have ht := mergeSort_simLE_tiebreak _ (similarity_list_pairwise_idx qe chunks embs)
    exact (hs.and ht).sublist (pySlice_sublist _ k)
  · intro n hk hn
    subst hk
    have h0 : (0 : Int) ≤ n := le_trans (Int.natCast_nonneg _) hn
    have hlen : ((similarity_list qe chunks embs).mergeSort simLE).length ≤ n.toNat := by
      rw [List.length_mergeSort, similarity_list_length]
      omega
    have hfull : _in_memory_search qe chunks embs (some n)
        = (similarity_list qe chunks embs).mergeSort simLE := by
      rw [_in_memory_search, pySlice, if_pos h0, List.take_of_length_le hlen]
    constructor
    · rw [hfull]; exact List.mergeSort_perm _ simLE
    · rw [hfull, List.length_mergeSort, similarity_list_length]

theorem in_memory_search_ordering_witness :
    (_in_memory_search [(1 : ℝ)] ["a", "b"] [[(1 : ℝ)], [(0 : ℝ)]] (some 5)).Perm
      (similarity_list [(1 : ℝ)] ["a", "b"] [[(1 : ℝ)], [(0 : ℝ)]])
    ∧ (_in_memory_search [(1 : ℝ)] ["a", "b"] [[(1 : ℝ)], [(0 : ℝ)]] (some 5)).length = 2 :=
  (in_memory_search_ordering [(1 : ℝ)] ["a", "b"] [[(1 : ℝ)], [(0 : ℝ)]] (some 5)).2
    5 rfl (by norm_num)

/-- C3: When the Pinecone query raises any exception: if both in-memory
chunks and embeddings are non-empty, `search_similar_chunks` returns
exactly the same ranked result sequence as a direct in-memory query with
identical inputs (the fallback is transparent, no failure propagated); if
no in-memory data exists, it returns the empty sequence instead of an
error. -/
theorem search_fallback_transparent (e : String) (embedQuery : String → List ℝ)
    (query : String) (chunks : List String) (embs : List (List ℝ)) (k : Option Int)
    (iname : String) (hin : iname ≠ "") :
    (chunks ≠ [] → embs ≠ [] →
      search_similar_chunks (.error e) embedQuery query chunks embs k (some iname)
        = search_similar_chunks (.error e) embedQuery query chunks embs k none)
    ∧ (chunks = [] → embs = [] →
      search_similar_chunks (.error e) embedQuery query chunks embs k (some iname)
        = []) := by
  have hie : iname.isEmpty = false := by
    by_contra hc
    rw [Bool.not_eq_false] at hc
    exact hin ((String.isEmpty_iff iname).mp hc)
  constructor
  · intro h1 h2
    simp [search_similar_chunks, truthyStr, hie, h1, h2]
  · intro h1 h2
    simp [search_similar_chunks, truthyStr, hie, h1, h2]

theorem search_fallback_transparent_witness :
    search_similar_chunks (.error "boom") (fun _ => [(1 : ℝ)]) "q" ["a"] [[(1 : ℝ)]]
        (some 3) (some "idx")
      = search_similar_chunks (.error "boom") (fun _ => [(1 : ℝ)]) "q" ["a"] [[(1 : ℝ)]]
        (some 3) none
    ∧ search_similar_chunks (.error "boom") (fun _ => [(1 : ℝ)]) "q" [] [] (some 3)
        (some "idx") = [] := by
  constructor
  · exact (search_fallback_transparent "boom" (fun _ => [(1 : ℝ)]) "q" ["a"]
      [[(1 : ℝ)]] (some 3) "idx" (by decide)).1
      (List.cons_ne_nil _ _) (List.cons_ne_nil _ _)
  · exact (search_fallback_transparent "boom" (fun _ => [(1 : ℝ)]) "q" [] []
      (some 3) "idx" (by decide)).2 rfl rfl

/-- C4: When retrieval returns an empty match sequence, the answering
operation returns the fixed no-information sentinel and performs zero
generation calls; otherwise it joins the retrieved chunk texts in ranked
order with a blank-line separator into the context block of the fixed
prompt and performs exactly one generation call on that prompt. -/
theorem ask_llm_with_context_spec (ollama : String → OllamaResult)
    (pineconeQ : Except String (List (String × ℝ × String)))
    (embedQuery : String → List ℝ) (query : String) (chunks : List String)
    (embs : List (List ℝ)) (iname : Option String) (k : Option Int)
    (retrieved : List SimilarityMatch)
    (hr : search_similar_chunks pineconeQ embedQuery query chunks embs k iname
      = retrieved) :
    (retrieved = [] →
      ask_llm_with_context ollama pineconeQ embedQuery query chunks embs iname k
        = (no_info_message, 0))
    ∧ (retrieved ≠ [] →
      ask_llm_with_context ollama pineconeQ embedQuery query chunks embs iname k
        = (call_ollama_llm (ollama (llm_prompt
            (String.intercalate "\n\n" (retrieved.map fun m => m.2.2)) query)), 1)) := by
  subst hr
  constructor
  · intro h
    simp [ask_llm_with_context, h]
  · intro h
    simp [ask_llm_with_context, h]

theorem ask_llm_with_context_spec_witness :
    ask_llm_with_context (fun _ => .success []) (.ok []) (fun _ => []) "q" [] [] none none
      = (no_info_message, 0)
    ∧ ask_llm_with_context (fun _ => .success []) (.ok []) (fun _ => [(1 : ℝ)]) "q"
        ["a"] [[(1 : ℝ)]] none none
      = ("Ollama LLM response received, but no content was extracted.", 1) := by
  constructor
  · have h0 : search_similar_chunks (.ok []) (fun _ => ([] : List ℝ)) "q" [] [] none none
        = [] := by
      simp [search_similar_chunks, truthyStr, _in_memory_search, similarity_list, pySlice]
    exact (ask_llm_with_context_spec (fun _ => .success []) (.ok []) (fun _ => []) "q"
      [] [] none none [] h0).1 rfl
  · have hne : search_similar_chunks (.ok []) (fun _ => [(1 : ℝ)]) "q" ["a"] [[(1 : ℝ)]]
        none none ≠ [] := by
      simp [search_similar_chunks, truthyStr, _in_memory_search, similarity_list, pySlice]
    exact ((ask_llm_with_context_spec (fun _ => .success []) (.ok [])
      (fun _ => [(1 : ℝ)]) "q" ["a"] [[(1 : ℝ)]] none none _ rfl).2 hne).trans (by rfl)

/-- C6 counterexample: the code enforces no lower bound on `topK` — a query
body with `top_k = 0` is accepted by the schema unchanged, so it is false
that every accepted request has `topK` at least 1. -/
theorem topk_min_one_not_enforced :
    ¬ ∀ (q : String) (f : Option (Option Int)) (p : Option (Option String)) (v : Int),
        (parseQueryModel q f p).top_k = some v → 1 ≤ v := by
  intro h
  have h0 := h "q" (some (some 0)) none 0 rfl
  exact absurd h0 (by norm_num)

/-- C6 (amended): `topK` defaults to 5 when the field is not supplied by
the caller; no minimum is enforced — any integer (or an explicit `null`)
is accepted unchanged, and `topK = 0` simply yields an empty in-memory
result list rather than an error. -/
theorem topk_default_five_unvalidated (q : String) (p : Option (Option String)) (z : Int)
    (qe : List ℝ) (chunks : List String) (embs : List (List ℝ)) :
    (parseQueryModel q none p).top_k = some 5
    ∧ (parseQueryModel q (some (some z)) p).top_k = some z
    ∧ (parseQueryModel q (some none) p).top_k = none
    ∧ _in_memory_search qe chunks embs (some 0) = [] := by
  refine ⟨rfl, rfl, rfl, ?_⟩
  simp [_in_memory_search, pySlice]

theorem upload_ok_state (env : UploadEnv) (st : PipelineState) (f : String)
    (iname : Option String) (resp : UploadResponse)
    (hok : (upload_and_process_document env st f iname).1 = .ok resp) :
    ∃ text model,
      extractStep env f = .ok text
      ∧ env.initialize_embeddings = some model
      ∧ env.embed_fails = false
      ∧ ∀ st2 : PipelineState,
          upload_and_process_document env st2 f iname =
            (.ok resp,
             { chunks := env.chunk_text_nltk text 200 20
               embeddings := (env.chunk_text_nltk text 200 20).map model.embedDoc
               metadata := create_embedding_metadata (env.chunk_text_nltk text 200 20)
                 (some f)
               embeddings_model := some model
               pinecone_index_name :=
                 if truthyStr iname then iname else st2.pinecone_index_name }) := by
  cases hx : extractStep env f with
  | error e => simp [upload_and_process_document, hx] at hok
  | ok text =>
    cases hm : env.initialize_embeddings with
    | none => simp [upload_and_process_document, hx, hm] at hok
    | some model =>
      refine ⟨text, model, rfl, rfl, ?_⟩
      cases hef : env.embed_fails with
      | true => simp [upload_and_process_document, hx, hm, hef] at hok
      | false =>
        refine ⟨rfl, ?_⟩
        cases hch : env.chunk_text_nltk text 200 20 with
        | nil => simp [upload_and_process_document, hx, hm, hef, hch] at hok
        | cons c cs =>
          intro st2
          cases iname with
          | none =>
            simp [upload_and_process_document, hx, hm, hef, hch] at hok
            subst hok
            simp [upload_and_process_document, hx, hm, hef, hch, truthyStr]
          | some iname2 =>
            cases hie : iname2.isEmpty with
            | true =>
              simp [upload_and_process_document, hx, hm, hef, hch, hie] at hok
              subst hok
              simp [upload_and_process_document, hx, hm, hef, hch, hie, truthyStr]
            | false =>
              cases hcie : env.create_index_error with
              | some err =>
                simp [upload_and_process_document, hx, hm, hef, hch, hie, hcie] at hok
              | none =>
                cases hso : env.store_ok with
                | false =>
                  simp [upload_and_process_document, hx, hm, hef, hch, hie, hcie, hso]
                    at hok
                | true =>
                  simp [upload_and_process_document, hx, hm, hef, hch, hie, hcie, hso]
                    at hok
                  subst hok
                  simp [upload_and_process_document, hx, hm, hef, hch, hie, hcie, hso,
                    truthyStr]

theorem create_embedding_metadata_length (chunks : List String) (sf : Option String) :
    (create_embedding_metadata chunks sf).length = chunks.length := by
  simp [create_embedding_metadata]

/-- C8 counterexample: the final pipeline state after a successful
ingestion is not fully determined by the ingestion's values — two
successful ingestions with identical inputs but different prior states end
in different states, because an in-memory ingestion keeps the previous
`pinecone_index_name` instead of replacing it. -/
theorem state_not_fully_replaced :
    (upload_and_process_document sample_env_ok sample_state_old "a.docx" none).1.isOk
      = true
    ∧ (upload_and_process_document sample_env_ok sample_state_empty "a.docx" none).1.isOk
      = true
    ∧ (upload_and_process_document sample_env_ok sample_state_old "a.docx"
        none).2.pinecone_index_name = some "oldindex"
    ∧ (upload_and_process_document sample_env_ok sample_state_empty "a.docx"
        none).2.pinecone_index_name = none
    ∧ (upload_and_process_document sample_env_ok sample_state_old "a.docx" none).2
      ≠ (upload_and_process_document sample_env_ok sample_state_empty "a.docx" none).2 := by
  refine ⟨by decide, by decide, by decide, by decide, fun h => ?_⟩
  exact absurd (congrArg PipelineState.pinecone_index_name h) (by decide)

/-- C8 (amended): After every successful ingestion the pipeline state's
chunks, embeddings and metadata sequences have equal length and share
index alignment, and the chunks, embeddings, metadata and embeddings_model
fields (as well as the response) are fully determined by the ingestion's
inputs, independent of the prior state; `pinecone_index_name`, however, is
replaced only when the ingestion stored vectors to a Pinecone index, and
otherwise keeps its previous value. -/
theorem ingest_aligns_and_replaces (env : UploadEnv) (st : PipelineState) (f : String)
    (iname : Option String) (resp : UploadResponse)
    (hok : (upload_and_process_document env st f iname).1 = .ok resp) :
    ((upload_and_process_document env st f iname).2.metadata.length
      = (upload_and_process_document env st f iname).2.chunks.length)
    ∧ ((upload_and_process_document env st f iname).2.embeddings.length
      = (upload_and_process_document env st f iname).2.chunks.length)
    ∧ (∀ st2 : PipelineState,
        (upload_and_process_document env st2 f iname).1
          = (upload_and_process_document env st f iname).1
        ∧ (upload_and_process_document env st2 f iname).2.chunks
          = (upload_and_process_document env st f iname).2.chunks
        ∧ (upload_and_process_document env st2 f iname).2.embeddings
          = (upload_and_process_document env st f iname).2.embeddings
        ∧ (upload_and_process_document env st2 f iname).2.metadata
          = (upload_and_process_document env st f iname).2.metadata
        ∧ (upload_and_process_document env st2 f iname).2.embeddings_model
          = (upload_and_process_document env st f iname).2.embeddings_model)
    ∧ (upload_and_process_document env st f iname).2.pinecone_index_name
      = (if truthyStr iname then iname else st.pinecone_index_name) := by
  obtain ⟨text, model, hx, hm, hef, hall⟩ := upload_ok_state env st f iname resp hok
  refine ⟨?_, ?_, ?_, ?_⟩
  · rw [hall st]
    simp [create_embedding_metadata_length]
  · rw [hall st]
    simp
  · intro st2
    rw [hall st2, hall st]
    exact ⟨rfl, rfl, rfl, rfl, rfl⟩
  · rw [hall st]

theorem ingest_aligns_and_replaces_witness :
    ((upload_and_process_document sample_env_ok sample_state_old "a.docx"
        none).2.metadata.length
      = (upload_and_process_document sample_env_ok sample_state_old "a.docx"
        none).2.chunks.length)
    ∧ (upload_and_process_document sample_env_ok sample_state_old "a.docx"
        none).2.pinecone_index_name = some "oldindex" := by
  obtain ⟨resp, hok⟩ : ∃ resp,
      (upload_and_process_document sample_env_ok sample_state_old "a.docx" none).1
        = .ok resp := by
    cases h : (upload_and_process_document sample_env_ok sample_state_old "a.docx"
        none).1 with
    | ok r => exact ⟨r, rfl⟩
    | error e =>
      have hb : (upload_and_process_document sample_env_ok sample_state_old "a.docx"
          none).1.isOk = true := by decide
      rw [h] at hb
      simp [Except.isOk, Except.toBool] at hb
  have h := ingest_aligns_and_replaces sample_env_ok sample_state_old "a.docx" none
    resp hok
  exact ⟨h.1, h.2.2.2.trans (by decide)⟩

/-- C9: Ingestion is not atomic with respect to the pipeline state: when
chunking and embedding succeed but Pinecone index creation raises or
vector storage fails, the request fails with a 500 server error while the
state's chunks, embeddings, metadata and embeddings_model have already
been replaced with the new document's data (no rollback), and
`pinecone_index_name` keeps its previous value. -/
theorem ingestion_not_atomic (env : UploadEnv) (st : PipelineState) (f text : String)
    (model : EmbModel) (iname : String)
    (hx : extractStep env f = .ok text)
    (hm : env.initialize_embeddings = some model)
    (hef : env.embed_fails = false)
    (hch : env.chunk_text_nltk text 200 20 ≠ [])
    (hie : iname.isEmpty = false)
    (hfail : env.create_index_error.isSome = true ∨ env.store_ok = false) :
    ∃ d, upload_and_process_document env st f (some iname) =
      (.error ⟨500, d⟩,
       { chunks := env.chunk_text_nltk text 200 20
         embeddings := (env.chunk_text_nltk text 200 20).map model.embedDoc
         metadata := create_embedding_metadata (env.chunk_text_nltk text 200 20) (some f)
         embeddings_model := some model
         pinecone_index_name := st.pinecone_index_name }) := by
  cases hch2 : env.chunk_text_nltk text 200 20 with
  | nil => exact absurd hch2 hch
  | cons c cs =>
    cases hcie : env.create_index_error with
    | some err =>
      refine ⟨"Pinecone index creation error: " ++ err, ?_⟩
      simp [upload_and_process_document, hx, hm, hef, hch2, hie, hcie]
    | none =>
      have hso : env.store_ok = false := by
        rcases hfail with h | h
        · rw [hcie] at h
          simp at h
        · exact h
      refine ⟨"Failed to store embeddings in Pinecone.", ?_⟩
      simp [upload_and_process_document, hx, hm, hef, hch2, hie, hcie, hso]

theorem ingestion_not_atomic_witness :
    ∃ d, upload_and_process_document sample_env_store_fail sample_state_old "a.docx"
        (some "newindex") =
      (.error ⟨500, d⟩,
       { chunks := ["hello world"]
         embeddings := [[(1 : ℝ)]]
         metadata := create_embedding_metadata ["hello world"] (some "a.docx")
         embeddings_model := some sample_model
         pinecone_index_name := some "oldindex" }) := by
  exact ingestion_not_atomic sample_env_store_fail sample_state_old "a.docx"
    "hello world" sample_model "newindex" rfl rfl rfl
    (by simp [sample_env_store_fail, sample_env_ok]) (by decide) (Or.inr rfl)

/-- C10: At query time a `pinecone_index_name` already stored in the
pipeline state takes precedence over the one supplied in the query
request: with a stored (non-empty) index name, `ask_document` behaves
identically for any request-supplied index name, and the Python `or`
resolution yields the request's value only when the state holds none. -/
theorem stored_index_precedence (env : QueryEnv) (st : PipelineState) (qd : QueryModel)
    (s : String) (hs : st.pinecone_index_name = some s) (hne : s ≠ "") :
    (∀ r : Option String,
      ask_document env st qd
        = ask_document env st { qd with pinecone_index_name := r })
    ∧ (∀ q : Option String, pyOr none q = q) := by
  have hie : s.isEmpty = false := by
    by_contra hc
    rw [Bool.not_eq_false] at hc
    exact hne ((String.isEmpty_iff s).mp hc)
  constructor
  · intro r
    cases hm : st.embeddings_model with
    | some m => simp [ask_document, hm, pyOr, truthyStr, hs, hie]
    | none =>
      cases he : env.initialize_embeddings with
      | some m => simp [ask_document, hm, he, pyOr, truthyStr, hs, hie]
      | none => simp [ask_document, hm, he]
  · intro q
    rfl

theorem stored_index_precedence_witness :
    ask_document sample_query_env sample_state_stored ⟨"q", some 5, none⟩
      = ask_document sample_query_env sample_state_stored ⟨"q", some 5, some "other"⟩ := by
  exact (stored_index_precedence sample_query_env sample_state_stored
    ⟨"q", some 5, none⟩ "stored" rfl (by decide)).1 (some "other")
